import Mathlib

/- Verification development for the homebuyer mortgage calculator
   (src/main.rs of the repository).

   Conventions of the shallow embedding:
   * Rust f64 arithmetic is idealised as exact rational arithmetic over the
     rationals; every stated property concerns the ideal real-number
     behaviour of the formulas in the source.
   * The Rust cast of a float to i32 saturates at the i32 bounds, and is
     modelled that way.
   * Fallible operations are modelled with Option: string parsing with the
     question-mark operator returns none on failure, and the natural-number
     subtraction on an empty row list, which aborts a debug build of the
     program, is modelled by a none result of the key handler.
   * Terminal rendering and file output are outside the model; the export
     action leaves the session state unchanged, as the handlers in the
     source do. -/

namespace Homebuyer

/-- Numeric value of a list of decimal digit characters, most significant
first, as the standard float parser computes it on the integral or the
fractional part of a literal. -/
def digitsToNat (l : List Char) : ℕ :=
  l.foldl (fun a c => 10 * a + (c.toNat - 48)) 0

/-- Parse of an unsigned decimal literal. This mirrors what f64 parsing in the
source accepts on the character set the wizard admits (digits and one optional
decimal point, with at least one digit overall); the rounding of the parsed
value to a float is idealised away, the value is kept exact. -/
def parseUnsignedDec (l : List Char) : Option ℚ :=
  let intPart := l.takeWhile Char.isDigit
  let rest := l.dropWhile Char.isDigit
  match rest with
  | [] => if intPart.isEmpty then none else some (digitsToNat intPart : ℚ)
  | '.' :: frac =>
    if frac.all Char.isDigit && !(intPart.isEmpty && frac.isEmpty) then
      some ((digitsToNat intPart : ℚ) + (digitsToNat frac : ℚ) / 10 ^ frac.length)
    else none
  | _ => none

/-- Parse of a decimal literal with an optional leading minus sign, mirroring
the str::parse calls of calculate_mortgage on the admissible characters. -/
def parseDec (s : String) : Option ℚ :=
  match s.data with
  | [] => none
  | '-' :: rest => (parseUnsignedDec rest).map (fun q => -q)
  | l => parseUnsignedDec l

/-- Mirror of struct MortgageInputs: the raw text buffers of the wizard. -/
structure MortgageInputs where
  house_value : String
  down_payment_percent : String
  down_payment_amount : String
  use_percent : Bool
  hoa_fee : String
  interest_rate : String
  property_tax_percent : String
  property_tax_amount : String
  use_property_tax_percent : Bool
  insurance_percent : String
  insurance_amount : String
  use_insurance_percent : Bool
  maintenance_percent : String
  maintenance_amount : String
  use_maintenance_percent : Bool
  pmi_percent : String
  pmi_amount : String
  use_pmi_percent : Bool
  house_appreciation_rate : String
  loan_term_years : String
  extra_principal_payment : String
  deriving DecidableEq

/-- Mirror of struct MortgageRow: one emitted month of the schedule. -/
structure MortgageRow where
  month : ℕ
  interest : ℚ
  principal : ℚ
  extra_principal : ℚ
  repair_costs : ℚ
  hoa : ℚ
  taxes : ℚ
  insurance : ℚ
  pmi : ℚ
  actual_payment : ℚ
  cost_of_capital : ℚ
  waste_cost : ℚ
  cost : ℚ
  debt : ℚ
  interest_rate : ℚ
  house_cost : ℚ
  equity : ℚ
  deriving DecidableEq

/-- Mirror of struct MortgageSummary. -/
structure MortgageSummary where
  total_interest_paid : ℚ
  total_principal_paid : ℚ
  total_taxes_paid : ℚ
  total_insurance_paid : ℚ
  total_maintenance_paid : ℚ
  total_pmi_paid : ℚ
  total_hoa_paid : ℚ
  total_payments : ℚ
  total_cost_of_capital : ℚ
  total_waste_cost : ℚ
  final_house_value : ℚ
  final_equity : ℚ
  months_to_payoff : ℕ
  effective_interest_rate : ℚ
  deriving DecidableEq

/-- The successfully parsed numeric values of the input fields, in source
order. For each rate-or-amount category only the active side is ever parsed
by the source; the inactive side is recorded here as 0 and is not read by
the constant setup. -/
structure RawParams where
  houseValue : ℚ
  hoaFee : ℚ
  interestRatePct : ℚ
  usePercent : Bool
  downPaymentPct : ℚ
  downPaymentAmt : ℚ
  loanTermYears : ℚ
  extraPrincipal : ℚ
  useTaxPercent : Bool
  taxPct : ℚ
  taxAmt : ℚ
  useInsPercent : Bool
  insPct : ℚ
  insAmt : ℚ
  useMaintPercent : Bool
  maintPct : ℚ
  maintAmt : ℚ
  usePmiPercent : Bool
  pmiPct : ℚ
  pmiAmt : ℚ
  appreciationPct : ℚ
  deriving DecidableEq

/-- The loop-invariant constants of calculate_mortgage, as bound by source
lines 145-214 before the monthly loop starts. -/
structure EngineConsts where
  houseValue : ℚ
  hoaMonthly : ℚ
  annualInterestRate : ℚ
  monthlyInterestRate : ℚ
  downPayment : ℚ
  loanAmount : ℚ
  downPaymentPercent : ℚ
  numPayments : ℤ
  monthlyPayment : ℚ
  extraPrincipal : ℚ
  annualTaxRate : ℚ
  annualTaxAmount : ℚ
  annualInsuranceRate : ℚ
  annualInsuranceAmount : ℚ
  annualMaintenanceRate : ℚ
  annualMaintenanceAmount : ℚ
  pmiRate : ℚ
  monthlyPmiAmount : ℚ
  annualAppreciationRate : ℚ
  monthlyAppreciationRate : ℚ
  deriving DecidableEq

/-- Saturating cast of an f64 value to i32, the semantics of the Rust
expression (loan_term_years * 12.0) as i32. -/
def i32Sat (q : ℚ) : ℤ :=
  max (-2147483648) (min 2147483647 ⌊q⌋)

/-- Mirror of the constant setup of calculate_mortgage (source lines 145-214),
starting from the parsed numeric field values. -/
def buildConsts (p : RawParams) : EngineConsts :=
  let annualInterestRate := p.interestRatePct / 100
  let monthlyInterestRate := annualInterestRate / 12
  let downPayment :=
    if p.usePercent then p.houseValue * (p.downPaymentPct / 100) else p.downPaymentAmt
  let loanAmount := p.houseValue - downPayment
  let downPaymentPercent := downPayment / p.houseValue
  let numPayments : ℤ := i32Sat (p.loanTermYears * 12)
  let monthlyPayment :=
    if monthlyInterestRate > 0 then
      loanAmount * (monthlyInterestRate * (1 + monthlyInterestRate) ^ numPayments)
        / ((1 + monthlyInterestRate) ^ numPayments - 1)
    else loanAmount / (numPayments : ℚ)
  let taxPair := if p.useTaxPercent then (p.taxPct / 100, (0 : ℚ)) else ((0 : ℚ), p.taxAmt)
  let insPair := if p.useInsPercent then (p.insPct / 100, (0 : ℚ)) else ((0 : ℚ), p.insAmt)
  let maintPair :=
    if p.useMaintPercent then (p.maintPct / 100, (0 : ℚ)) else ((0 : ℚ), p.maintAmt)
  let pmiPair :=
    if downPaymentPercent < (0.20 : ℚ) then
      (if p.usePmiPercent then (p.pmiPct / 100, (0 : ℚ)) else ((0 : ℚ), p.pmiAmt))
    else ((0 : ℚ), (0 : ℚ))
  let annualAppreciationRate := p.appreciationPct / 100
  { houseValue := p.houseValue
    hoaMonthly := p.hoaFee
    annualInterestRate := annualInterestRate
    monthlyInterestRate := monthlyInterestRate
    downPayment := downPayment
    loanAmount := loanAmount
    downPaymentPercent := downPaymentPercent
    numPayments := numPayments
    monthlyPayment := monthlyPayment
    extraPrincipal := p.extraPrincipal
    annualTaxRate := taxPair.1
    annualTaxAmount := taxPair.2
    annualInsuranceRate := insPair.1
    annualInsuranceAmount := insPair.2
    annualMaintenanceRate := maintPair.1
    annualMaintenanceAmount := maintPair.2
    pmiRate := pmiPair.1
    monthlyPmiAmount := pmiPair.2
    annualAppreciationRate := annualAppreciationRate
    monthlyAppreciationRate := annualAppreciationRate / 12 }

/-- The mutable accumulators of the monthly loop of calculate_mortgage
(remaining balance, appreciating house value, and the running summary
totals), apart from the row vector itself. -/
structure SimState where
  balance : ℚ
  houseValue : ℚ
  totalInterest : ℚ
  totalPrincipal : ℚ
  totalTaxes : ℚ
  totalInsurance : ℚ
  totalMaintenance : ℚ
  totalPmi : ℚ
  totalHoa : ℚ
  totalPayments : ℚ
  totalCostOfCapital : ℚ
  totalWasteCost : ℚ
  actualMonths : ℕ
  deriving DecidableEq

/-- One iteration of the monthly loop (source lines 233-325): updates the
accumulators and produces the emitted row of that month. -/
def simStep (c : EngineConsts) (month : ℕ) (s : SimState) : SimState × MortgageRow :=
  let interestPayment := s.balance * c.monthlyInterestRate
  let principalRaw := c.monthlyPayment - interestPayment
  let principalPayment :=
    if principalRaw + c.extraPrincipal > s.balance then s.balance else principalRaw
  let newHouse := s.houseValue * (1 + c.monthlyAppreciationRate)
  let monthlyTaxes :=
    if c.annualTaxRate > 0 then newHouse * c.annualTaxRate / 12 else c.annualTaxAmount / 12
  let monthlyInsurance :=
    if c.annualInsuranceRate > 0 then newHouse * c.annualInsuranceRate / 12
    else c.annualInsuranceAmount / 12
  let monthlyPmi :=
    if c.downPaymentPercent < (0.20 : ℚ) ∧ s.balance > 0 then
      (if c.pmiRate > 0 then s.balance * c.pmiRate / 12 else c.monthlyPmiAmount)
    else 0
  let monthlyRepairs :=
    if c.annualMaintenanceRate > 0 then newHouse * c.annualMaintenanceRate / 12
    else c.annualMaintenanceAmount / 12
  let totalPayment := interestPayment + principalPayment + c.extraPrincipal +
    monthlyRepairs + c.hoaMonthly + monthlyTaxes + monthlyInsurance + monthlyPmi
  let equity := newHouse - s.balance
  let costOfCapital := equity * c.annualInterestRate / 12
  let wasteCost := interestPayment + monthlyRepairs + c.hoaMonthly + monthlyTaxes +
    monthlyInsurance + monthlyPmi + costOfCapital
  let totalCost := totalPayment - principalPayment - c.extraPrincipal + costOfCapital
  let newBalance := s.balance - (principalPayment + c.extraPrincipal)
  ({ balance := newBalance
     houseValue := newHouse
     totalInterest := s.totalInterest + interestPayment
     totalPrincipal := s.totalPrincipal + (principalPayment + c.extraPrincipal)
     totalTaxes := s.totalTaxes + monthlyTaxes
     totalInsurance := s.totalInsurance + monthlyInsurance
     totalMaintenance := s.totalMaintenance + monthlyRepairs
     totalPmi := s.totalPmi + monthlyPmi
     totalHoa := s.totalHoa + c.hoaMonthly
     totalPayments := s.totalPayments + totalPayment
     totalCostOfCapital := s.totalCostOfCapital + costOfCapital
     totalWasteCost := s.totalWasteCost + wasteCost
     actualMonths := month },
   { month := month
     interest := interestPayment
     principal := principalPayment
     extra_principal := c.extraPrincipal
     repair_costs := monthlyRepairs
     hoa := c.hoaMonthly
     taxes := monthlyTaxes
     insurance := monthlyInsurance
     pmi := monthlyPmi
     actual_payment := totalPayment
     cost_of_capital := costOfCapital
     waste_cost := wasteCost
     cost := totalCost
     debt := newBalance
     interest_rate := c.annualInterestRate
     house_cost := newHouse
     equity := equity })

/-- The monthly loop: months are numbered from the first argument, at most
fuel iterations run, and the loop stops as soon as the remaining balance is
at or below zero, exactly as the for loop with its break at source lines
233-236. The rows are returned in emission order. -/
def simFrom (c : EngineConsts) : ℕ → ℕ → SimState → SimState × List MortgageRow
  | _, 0, s => (s, [])
  | month, fuel + 1, s =>
    if s.balance ≤ 0 then (s, [])
    else
      let sr := simStep c month s
      let rest := simFrom c (month + 1) fuel sr.1
      (rest.1, sr.2 :: rest.2)

/-- The accumulators as initialised just before the loop (source
lines 216-231). -/
def initialState (c : EngineConsts) : SimState where
  balance := c.loanAmount
  houseValue := c.houseValue
  totalInterest := 0
  totalPrincipal := 0
  totalTaxes := 0
  totalInsurance := 0
  totalMaintenance := 0
  totalPmi := 0
  totalHoa := 0
  totalPayments := 0
  totalCostOfCapital := 0
  totalWasteCost := 0
  actualMonths := 0

/-- Summary derivation after the loop ends (source lines 327-351).
Note that the source sets final_equity to final_house_value. -/
def mkSummary (t : SimState) : MortgageSummary :=
  let finalHouseValue := t.houseValue
  let finalEquity := finalHouseValue
  let effectiveInterestRate :=
    if t.totalPrincipal > 0 then
      (t.totalInterest / t.totalPrincipal) * (12 / (t.actualMonths : ℚ))
    else 0
  { total_interest_paid := t.totalInterest
    total_principal_paid := t.totalPrincipal
    total_taxes_paid := t.totalTaxes
    total_insurance_paid := t.totalInsurance
    total_maintenance_paid := t.totalMaintenance
    total_pmi_paid := t.totalPmi
    total_hoa_paid := t.totalHoa
    total_payments := t.totalPayments
    total_cost_of_capital := t.totalCostOfCapital
    total_waste_cost := t.totalWasteCost
    final_house_value := finalHouseValue
    final_equity := finalEquity
    months_to_payoff := t.actualMonths
    effective_interest_rate := effectiveInterestRate }

/-- The result of a successful calculate_mortgage call: the stored row
vector, the stored summary, and the final value of the remaining-balance
loop variable. -/
structure EngineOut where
  rows : List MortgageRow
  summary : MortgageSummary
  finalBalance : ℚ
  deriving DecidableEq

/-- The whole numeric part of calculate_mortgage given parsed inputs: run
the 360-month loop from the initial accumulators and derive the summary. -/
def runSim (c : EngineConsts) : EngineOut :=
  let res := simFrom c 1 360 (initialState c)
  { rows := res.2
    summary := mkSummary res.1
    finalBalance := res.1.balance }

/-- The parsing half of calculate_mortgage: each parse call in source order,
with the down-payment and every rate-or-amount pair resolved from its active
side only, and the PMI fields parsed only when the origination down-payment
fraction is below 0.20, exactly as in source lines 145-214. -/
def resolveConsts (inp : MortgageInputs) : Option RawParams := do
  let houseValue ← parseDec inp.house_value
  let hoaFee ← parseDec inp.hoa_fee
  let interestRatePct ← parseDec inp.interest_rate
  let dpPair ←
    if inp.use_percent then (parseDec inp.down_payment_percent).map (fun q => (q, (0 : ℚ)))
    else (parseDec inp.down_payment_amount).map (fun q => ((0 : ℚ), q))
  let downPayment :=
    if inp.use_percent then houseValue * (dpPair.1 / 100) else dpPair.2
  let downPaymentPercent := downPayment / houseValue
  let loanTermYears ← parseDec inp.loan_term_years
  let extraPrincipal ← parseDec inp.extra_principal_payment
  let taxPair ←
    if inp.use_property_tax_percent then
      (parseDec inp.property_tax_percent).map (fun q => (q, (0 : ℚ)))
    else (parseDec inp.property_tax_amount).map (fun q => ((0 : ℚ), q))
  let insPair ←
    if inp.use_insurance_percent then
      (parseDec inp.insurance_percent).map (fun q => (q, (0 : ℚ)))
    else (parseDec inp.insurance_amount).map (fun q => ((0 : ℚ), q))
  let maintPair ←
    if inp.use_maintenance_percent then
      (parseDec inp.maintenance_percent).map (fun q => (q, (0 : ℚ)))
    else (parseDec inp.maintenance_amount).map (fun q => ((0 : ℚ), q))
  let pmiPair ←
    if downPaymentPercent < (0.20 : ℚ) then
      (if inp.use_pmi_percent then (parseDec inp.pmi_percent).map (fun q => (q, (0 : ℚ)))
       else (parseDec inp.pmi_amount).map (fun q => ((0 : ℚ), q)))
    else pure ((0 : ℚ), (0 : ℚ))
  let appreciationPct ← parseDec inp.house_appreciation_rate
  pure
    { houseValue := houseValue
      hoaFee := hoaFee
      interestRatePct := interestRatePct
      usePercent := inp.use_percent
      downPaymentPct := dpPair.1
      downPaymentAmt := dpPair.2
      loanTermYears := loanTermYears
      extraPrincipal := extraPrincipal
      useTaxPercent := inp.use_property_tax_percent
      taxPct := taxPair.1
      taxAmt := taxPair.2
      useInsPercent := inp.use_insurance_percent
      insPct := insPair.1
      insAmt := insPair.2
      useMaintPercent := inp.use_maintenance_percent
      maintPct := maintPair.1
      maintAmt := maintPair.2
      usePmiPercent := inp.use_pmi_percent
      pmiPct := pmiPair.1
      pmiAmt := pmiPair.2
      appreciationPct := appreciationPct }

/-- Mirror of App::calculate_mortgage: parse every required field, then run
the simulation. A parse failure aborts before any stored state would be
touched (in the source, self.spreadsheet_data.clear() at line 216 happens
only after every parse has succeeded), so an error leaves rows and summary
untouched, which the caller models by keeping the App unchanged. -/
def calculateMortgage (inp : MortgageInputs) : Option EngineOut :=
  (resolveConsts inp).map (fun p => runSim (buildConsts p))

/-- Mirror of enum Screen. -/
inductive Screen where
  | HouseValue
  | DownPayment
  | HOAFee
  | InterestRate
  | PropertyTax
  | Insurance
  | Maintenance
  | PMI
  | HouseAppreciation
  | LoanTerm
  | ExtraPrincipal
  | Spreadsheet
  | Summary
  deriving DecidableEq

/-- The key codes the handlers of the source distinguish. -/
inductive Key where
  | char (c : Char)
  | enter
  | backspace
  | esc
  | tab
  | left
  | right
  | up
  | down
  | pageUp
  | pageDown
  deriving DecidableEq

/-- A key event: the code plus whether the CONTROL modifier is held. -/
structure KeyEvent where
  code : Key
  ctrl : Bool
  deriving DecidableEq

/-- Mirror of struct App: the single mutable session object. The selected
row of the spreadsheet table is the selected index of the TableState. -/
structure App where
  screen : Screen
  inputs : MortgageInputs
  spreadsheet_data : List MortgageRow
  tableSelected : Option ℕ
  summary : Option MortgageSummary
  deriving DecidableEq

/-- Mirror of Rust String::pop: removes the last character. -/
def strPop (s : String) : String :=
  { data := s.data.dropLast }

/-- Mirror of handle_hoa_input (source lines 522-537). Note that the
Enter, l, and Right arm moves to InterestRate without checking that the
field is non-empty. -/
def handleHoaInput (a : App) (k : KeyEvent) : App :=
  match k.code with
  | .char c =>
    if c.isDigit || c == '.' then
      { a with inputs := { a.inputs with hoa_fee := a.inputs.hoa_fee.push c } }
    else if c == 'l' then { a with screen := Screen.InterestRate }
    else if c == 'h' then { a with screen := Screen.DownPayment }
    else a
  | .backspace =>
    { a with inputs := { a.inputs with hoa_fee := strPop a.inputs.hoa_fee } }
  | .enter => { a with screen := Screen.InterestRate }
  | .right => { a with screen := Screen.InterestRate }
  | .esc => { a with screen := Screen.DownPayment }
  | .left => { a with screen := Screen.DownPayment }
  | _ => a

/-- The Enter, l, and Right arm of handle_extra_principal_input (source
lines 744-753): when the field is non-empty the engine runs; on an engine
error the session state is left as it was (only a message is printed), on
success the rows and summary are stored, the screen moves to the
spreadsheet and the first row is selected. -/
def extraPrincipalAdvance (a : App) : App :=
  if a.inputs.extra_principal_payment.isEmpty then a
  else
    match calculateMortgage a.inputs with
    | none => a
    | some out =>
      { a with screen := Screen.Spreadsheet
               spreadsheet_data := out.rows
               summary := some out.summary
               tableSelected := some 0 }

/-- Mirror of handle_extra_principal_input (source lines 736-758). -/
def handleExtraPrincipalInput (a : App) (k : KeyEvent) : App :=
  match k.code with
  | .char c =>
    if c.isDigit || c == '.' then
      { a with inputs :=
          { a.inputs with extra_principal_payment := a.inputs.extra_principal_payment.push c } }
    else if c == 'l' then extraPrincipalAdvance a
    else if c == 'h' then { a with screen := Screen.LoanTerm }
    else a
  | .backspace =>
    { a with inputs :=
        { a.inputs with extra_principal_payment := strPop a.inputs.extra_principal_payment } }
  | .enter => extraPrincipalAdvance a
  | .right => extraPrincipalAdvance a
  | .esc => { a with screen := Screen.LoanTerm }
  | .left => { a with screen := Screen.LoanTerm }
  | _ => a

/-- The next-row arm of handle_spreadsheet_input (source lines 783-789).
The source evaluates spreadsheet_data.len() - 1 on a usize; on an empty row
list that subtraction underflows (a debug build aborts), modelled by the
none result. -/
def spreadsheetNavDown (a : App) : Option (Bool × App) :=
  if a.spreadsheet_data.length = 0 then none
  else if a.tableSelected.getD 0 < a.spreadsheet_data.length - 1 then
    some (false, { a with tableSelected := some (a.tableSelected.getD 0 + 1) })
  else some (false, a)

/-- The previous-row arm (source lines 790-796). -/
def spreadsheetNavUp (a : App) : Option (Bool × App) :=
  if 0 < a.tableSelected.getD 0 then
    some (false, { a with tableSelected := some (a.tableSelected.getD 0 - 1) })
  else some (false, a)

/-- The page-forward arm (source lines 797-802), with the same underflowing
len() - 1 on an empty row list as the next-row arm. -/
def spreadsheetPageFwd (a : App) : Option (Bool × App) :=
  if a.spreadsheet_data.length = 0 then none
  else
    let newPos := min (a.tableSelected.getD 0 + 10) (a.spreadsheet_data.length - 1)
    some (false, { a with tableSelected := some newPos })

/-- The page-backward arm (source lines 803-808); the subtraction here is a
saturating one in the source, matching natural-number subtraction. -/
def spreadsheetPageBack (a : App) : Option (Bool × App) :=
  some (false, { a with tableSelected := some (a.tableSelected.getD 0 - 10) })

/-- Mirror of handle_spreadsheet_input (source lines 760-825). The bool of
the result is the quit flag of the source; the export arm only performs
output and leaves the state unchanged. The page arms require the CONTROL
modifier for both their key codes, exactly as the match guard in the
source does. -/
def handleSpreadsheetInput (a : App) (k : KeyEvent) : Option (Bool × App) :=
  match k.code with
  | .char c =>
    if c == 'q' || c == 'Q' then some (true, a)
    else if c == 's' || c == 'S' then some (false, { a with screen := Screen.Summary })
    else if c == 'e' || c == 'E' then some (false, a)
    else if c == 'j' then spreadsheetNavDown a
    else if c == 'k' then spreadsheetNavUp a
    else if c == 'd' && k.ctrl then spreadsheetPageFwd a
    else if c == 'u' && k.ctrl then spreadsheetPageBack a
    else if c == 'g' then some (false, { a with tableSelected := some 0 })
    else if c == 'G' then
      (if a.spreadsheet_data.isEmpty then some (false, a)
       else some (false, { a with tableSelected := some (a.spreadsheet_data.length - 1) }))
    else if c == 'h' then some (false, { a with screen := Screen.ExtraPrincipal })
    else some (false, a)
  | .esc => some (false, { a with screen := Screen.ExtraPrincipal })
  | .down => spreadsheetNavDown a
  | .up => spreadsheetNavUp a
  | .pageDown => if k.ctrl then spreadsheetPageFwd a else some (false, a)
  | .pageUp => if k.ctrl then spreadsheetPageBack a else some (false, a)
  | .left => some (false, { a with screen := Screen.ExtraPrincipal })
  | _ => some (false, a)

/-- The list-navigation key events of the spreadsheet step: next and
previous row (arrow or j and k), page forward and backward (PageDown and
PageUp or ctrl-d and ctrl-u), top and bottom (g and G). -/
def navKeys : List KeyEvent :=
  [{ code := Key.down, ctrl := false }, { code := Key.char 'j', ctrl := false },
   { code := Key.up, ctrl := false }, { code := Key.char 'k', ctrl := false },
   { code := Key.pageDown, ctrl := true }, { code := Key.char 'd', ctrl := true },
   { code := Key.pageUp, ctrl := true }, { code := Key.char 'u', ctrl := true },
   { code := Key.char 'g', ctrl := false }, { code := Key.char 'G', ctrl := false }]

/-- Replacement of the text of the inactive side of each dual-mode category
(down payment, property tax, insurance, maintenance, PMI), as selected by
the corresponding flag; the active side and every other field are kept.
This expresses what it means for two input states to agree on everything
except inactive representations. -/
def setInactive (i : MortgageInputs) (dpS taxS insS maintS pmiS : String) : MortgageInputs :=
  { i with
    down_payment_percent := if i.use_percent then i.down_payment_percent else dpS
    down_payment_amount := if i.use_percent then dpS else i.down_payment_amount
    property_tax_percent := if i.use_property_tax_percent then i.property_tax_percent else taxS
    property_tax_amount := if i.use_property_tax_percent then taxS else i.property_tax_amount
    insurance_percent := if i.use_insurance_percent then i.insurance_percent else insS
    insurance_amount := if i.use_insurance_percent then insS else i.insurance_amount
    maintenance_percent := if i.use_maintenance_percent then i.maintenance_percent else maintS
    maintenance_amount := if i.use_maintenance_percent then maintS else i.maintenance_amount
    pmi_percent := if i.use_pmi_percent then i.pmi_percent else pmiS
    pmi_amount := if i.use_pmi_percent then pmiS else i.pmi_amount }

/-- The idealised balance recursion without the final-month cap: every month
the balance grows by one month of interest and the scheduled payment plus
the extra principal is removed. Used to bound the actual loop balance. -/
def uBal (L P r e : ℚ) : ℕ → ℚ
  | 0 => L
  | k + 1 => uBal L P r e k * (1 + r) - (P + e)

/-- A zero row, used as the default of getLastD. -/
def row0 : MortgageRow where
  month := 0
  interest := 0
  principal := 0
  extra_principal := 0
  repair_costs := 0
  hoa := 0
  taxes := 0
  insurance := 0
  pmi := 0
  actual_payment := 0
  cost_of_capital := 0
  waste_cost := 0
  cost := 0
  debt := 0
  interest_rate := 0
  house_cost := 0
  equity := 0

/-- Mirror of the input values of App::default(). -/
def defaultInputs : MortgageInputs where
  house_value := ""
  down_payment_percent := "20"
  down_payment_amount := ""
  use_percent := true
  hoa_fee := "0"
  interest_rate := "6.5"
  property_tax_percent := "2"
  property_tax_amount := ""
  use_property_tax_percent := true
  insurance_percent := "0.35"
  insurance_amount := ""
  use_insurance_percent := true
  maintenance_percent := "1"
  maintenance_amount := ""
  use_maintenance_percent := true
  pmi_percent := "0.5"
  pmi_amount := ""
  use_pmi_percent := true
  house_appreciation_rate := "3"
  loan_term_years := "30"
  extra_principal_payment := "0"

/-- A wizard state sitting on the HOA step whose hoa_fee buffer has been
erased to the empty string. -/
def appHoaEmpty : App where
  screen := Screen.HOAFee
  inputs := { defaultInputs with hoa_fee := "" }
  spreadsheet_data := []
  tableSelected := none
  summary := none

/-- A wizard state on the ExtraPrincipal step whose house_value field is
still empty, so the engine parse fails when it runs. -/
def appBadCalc : App where
  screen := Screen.ExtraPrincipal
  inputs := defaultInputs
  spreadsheet_data := [row0]
  tableSelected := none
  summary := none

/-- A spreadsheet state whose row list is empty (the engine produces no rows
when the loan amount is not positive) with the first row selected, as the
transition into the spreadsheet step leaves it. -/
def appNoRows : App where
  screen := Screen.Spreadsheet
  inputs := defaultInputs
  spreadsheet_data := []
  tableSelected := some 0
  summary := none

/-- A spreadsheet state with a single row and the first row selected. -/
def appOneRow : App where
  screen := Screen.Spreadsheet
  inputs := defaultInputs
  spreadsheet_data := [row0]
  tableSelected := some 0
  summary := none

/-- A zero-interest loan of 96 over one year with an extra monthly principal
payment of 48 and all recurring costs zero: the scheduled payment is 8, and
in the second month the cap fires with the balance at 40 while 40 + 48 is
deducted, leaving a final balance of -48. -/
def pExtra : RawParams where
  houseValue := 96
  hoaFee := 0
  interestRatePct := 0
  usePercent := false
  downPaymentPct := 0
  downPaymentAmt := 0
  loanTermYears := 1
  extraPrincipal := 48
  useTaxPercent := true
  taxPct := 0
  taxAmt := 0
  useInsPercent := true
  insPct := 0
  insAmt := 0
  useMaintPercent := true
  maintPct := 0
  maintAmt := 0
  usePmiPercent := true
  pmiPct := 0
  pmiAmt := 0
  appreciationPct := 0

/-- A zero-interest loan of 372 over 31 years with no extra payments and all
recurring costs zero: the scheduled payment is 1 per month, so after the
360-iteration cap of the loop a balance of 12 remains. -/
def pLong : RawParams := { pExtra with houseValue := 372, loanTermYears := 31, extraPrincipal := 0 }

/-- A zero-interest loan whose term of a billion years makes the i32 cast of
loan_term_years * 12.0 saturate at 2147483647. -/
def pHugeTerm : RawParams := { pExtra with houseValue := 2147483647, loanTermYears := 1000000000, extraPrincipal := 0 }

/-- A standard parameter set: 100000 house, 20 percent down, 6.5 percent
rate, 30-year term, no extra payments. -/
def pStd : RawParams where
  houseValue := 100000
  hoaFee := 0
  interestRatePct := 6.5
  usePercent := true
  downPaymentPct := 20
  downPaymentAmt := 0
  loanTermYears := 30
  extraPrincipal := 0
  useTaxPercent := true
  taxPct := 2
  taxAmt := 0
  useInsPercent := true
  insPct := 0.35
  insAmt := 0
  useMaintPercent := true
  maintPct := 1
  maintAmt := 0
  usePmiPercent := true
  pmiPct := 0.5
  pmiAmt := 0
  appreciationPct := 3

/-- The standard parameter set with a zero interest rate. -/
def pStdZero : RawParams := { pStd with interestRatePct := 0 }

theorem simFrom_fuel_zero (c : EngineConsts) (month : ℕ) (s : SimState) :
    simFrom c month 0 s = (s, []) := rfl

theorem simFrom_stop (c : EngineConsts) (month fuel : ℕ) (s : SimState) (h : s.balance ≤ 0) :
    simFrom c month fuel s = (s, []) := by
  cases fuel with
  | zero => rfl
  | succ n => simp [simFrom, h]

theorem simFrom_succ (c : EngineConsts) (month fuel : ℕ) (s : SimState)
    (h : ¬ s.balance ≤ 0) :
    simFrom c month (fuel + 1) s =
      ((simFrom c (month + 1) fuel (simStep c month s).1).1,
        (simStep c month s).2 :: (simFrom c (month + 1) fuel (simStep c month s).1).2) := by
  simp [simFrom, h]

theorem simStep_snd_debt (c : EngineConsts) (month : ℕ) (s : SimState) :
    (simStep c month s).2.debt = (simStep c month s).1.balance := rfl

theorem simStep_snd_month (c : EngineConsts) (month : ℕ) (s : SimState) :
    (simStep c month s).2.month = month := rfl

theorem simStep_snd_extra (c : EngineConsts) (month : ℕ) (s : SimState) :
    (simStep c month s).2.extra_principal = c.extraPrincipal := rfl

theorem simStep_snd_principal (c : EngineConsts) (month : ℕ) (s : SimState) :
    (simStep c month s).2.principal =
      (if c.monthlyPayment - s.balance * c.monthlyInterestRate + c.extraPrincipal > s.balance
       then s.balance else c.monthlyPayment - s.balance * c.monthlyInterestRate) := rfl

theorem simStep_snd_interest (c : EngineConsts) (month : ℕ) (s : SimState) :
    (simStep c month s).2.interest = s.balance * c.monthlyInterestRate := rfl

theorem simStep_snd_pmi (c : EngineConsts) (month : ℕ) (s : SimState) :
    (simStep c month s).2.pmi =
      (if c.downPaymentPercent < (0.20 : ℚ) ∧ s.balance > 0 then
        (if c.pmiRate > 0 then s.balance * c.pmiRate / 12 else c.monthlyPmiAmount)
       else 0) := rfl

theorem simStep_fst_balance (c : EngineConsts) (month : ℕ) (s : SimState) :
    (simStep c month s).1.balance =
      s.balance - ((simStep c month s).2.principal + c.extraPrincipal) := rfl

theorem simStep_fst_totalPrincipal (c : EngineConsts) (month : ℕ) (s : SimState) :
    (simStep c month s).1.totalPrincipal =
      s.totalPrincipal + ((simStep c month s).2.principal + c.extraPrincipal) := rfl

theorem simStep_fst_totalInterest (c : EngineConsts) (month : ℕ) (s : SimState) :
    (simStep c month s).1.totalInterest =
      s.totalInterest + s.balance * c.monthlyInterestRate := rfl

theorem simStep_fst_totalPmi (c : EngineConsts) (month : ℕ) (s : SimState) :
    (simStep c month s).1.totalPmi = s.totalPmi + (simStep c month s).2.pmi := rfl

theorem runSim_rows (c : EngineConsts) :
    (runSim c).rows = (simFrom c 1 360 (initialState c)).2 := rfl

theorem runSim_finalBalance (c : EngineConsts) :
    (runSim c).finalBalance = (simFrom c 1 360 (initialState c)).1.balance := rfl

theorem runSim_totalPrincipal (c : EngineConsts) :
    (runSim c).summary.total_principal_paid =
      (simFrom c 1 360 (initialState c)).1.totalPrincipal := rfl

theorem runSim_totalInterest (c : EngineConsts) :
    (runSim c).summary.total_interest_paid =
      (simFrom c 1 360 (initialState c)).1.totalInterest := rfl

theorem runSim_totalPmi (c : EngineConsts) :
    (runSim c).summary.total_pmi_paid =
      (simFrom c 1 360 (initialState c)).1.totalPmi := rfl

theorem simFrom_length_le (c : EngineConsts) :
    ∀ fuel month s, (simFrom c month fuel s).2.length ≤ fuel := by
  intro fuel
  induction fuel with
  | zero => intro m s; simp [simFrom_fuel_zero]
  | succ n ih =>
    intro m s
    by_cases h : s.balance ≤ 0
    · rw [simFrom_stop c m _ s h]; simp
    · rw [simFrom_succ c m n s h]
      simpa using ih (m + 1) (simStep c m s).1

theorem simFrom_months (c : EngineConsts) :
    ∀ fuel month s, (simFrom c month fuel s).2.map MortgageRow.month =
      List.range' month (simFrom c month fuel s).2.length := by
  intro fuel
  induction fuel with
  | zero => intro m s; simp [simFrom_fuel_zero]
  | succ n ih =>
    intro m s
    by_cases h : s.balance ≤ 0
    · rw [simFrom_stop c m _ s h]; simp
    · rw [simFrom_succ c m n s h]
      simp only [List.map_cons, List.length_cons, List.range'_succ, simStep_snd_month]
      rw [ih (m + 1) (simStep c m s).1]

theorem simFrom_sum_principal (c : EngineConsts) :
    ∀ fuel month s,
      ((simFrom c month fuel s).2.map (fun row => row.principal + row.extra_principal)).sum =
        s.balance - (simFrom c month fuel s).1.balance := by
  intro fuel
  induction fuel with
  | zero => intro m s; simp [simFrom_fuel_zero]
  | succ n ih =>
    intro m s
    by_cases h : s.balance ≤ 0
    · rw [simFrom_stop c m _ s h]; simp
    · rw [simFrom_succ c m n s h]
      simp only [List.map_cons, List.sum_cons]
      rw [ih (m + 1) (simStep c m s).1, simStep_snd_extra,
        simStep_fst_balance c m s]
      ring

theorem simFrom_totalPrincipal (c : EngineConsts) :
    ∀ fuel month s, (simFrom c month fuel s).1.totalPrincipal =
      s.totalPrincipal + (s.balance - (simFrom c month fuel s).1.balance) := by
  intro fuel
  induction fuel with
  | zero => intro m s; simp [simFrom_fuel_zero]
  | succ n ih =>
    intro m s
    by_cases h : s.balance ≤ 0
    · rw [simFrom_stop c m _ s h]; simp
    · rw [simFrom_succ c m n s h]
      have hb := simStep_fst_balance c m s
      have ht := simStep_fst_totalPrincipal c m s
      rw [ih (m + 1) (simStep c m s).1, ht, hb]
      ring

theorem simFrom_nil_fst (c : EngineConsts) (fuel month : ℕ) (s : SimState)
    (h : (simFrom c month fuel s).2 = []) : (simFrom c month fuel s).1 = s := by
  cases fuel with
  | zero => rfl
  | succ n =>
    by_cases hb : s.balance ≤ 0
    · rw [simFrom_stop c month _ s hb]
    · rw [simFrom_succ c month n s hb] at h ⊢
      simp at h

theorem simFrom_ne_nil (c : EngineConsts) (fuel month : ℕ) (s : SimState)
    (hf : fuel ≠ 0) (hb : 0 < s.balance) : (simFrom c month fuel s).2 ≠ [] := by
  cases fuel with
  | zero => exact absurd rfl hf
  | succ n =>
    rw [simFrom_succ c month n s (by linarith)]
    simp

theorem simStep_balance_cap (c : EngineConsts) (month : ℕ) (s : SimState)
    (hcap : c.monthlyPayment - s.balance * c.monthlyInterestRate + c.extraPrincipal
      > s.balance) :
    (simStep c month s).1.balance = -c.extraPrincipal := by
  rw [simStep_fst_balance, simStep_snd_principal, if_pos hcap]; ring

theorem simStep_balance_nocap (c : EngineConsts) (month : ℕ) (s : SimState)
    (hcap : ¬ c.monthlyPayment - s.balance * c.monthlyInterestRate + c.extraPrincipal
      > s.balance) :
    (simStep c month s).1.balance =
      s.balance -
        (c.monthlyPayment - s.balance * c.monthlyInterestRate + c.extraPrincipal) := by
  rw [simStep_fst_balance, simStep_snd_principal, if_neg hcap]

theorem simFrom_debt_ge (c : EngineConsts) (he : 0 ≤ c.extraPrincipal) :
    ∀ fuel month s, ∀ row ∈ (simFrom c month fuel s).2, -c.extraPrincipal ≤ row.debt := by
  intro fuel
  induction fuel with
  | zero => intro m s row hrow; simp [simFrom_fuel_zero] at hrow
  | succ n ih =>
    intro m s row hrow
    by_cases hb : s.balance ≤ 0
    · rw [simFrom_stop c m _ s hb] at hrow; simp at hrow
    · rw [simFrom_succ c m n s hb] at hrow
      simp only [List.mem_cons] at hrow
      rcases hrow with rfl | hrow
      · rw [simStep_snd_debt]
        by_cases hcap : c.monthlyPayment - s.balance * c.monthlyInterestRate +
            c.extraPrincipal > s.balance
        · rw [simStep_balance_cap c m s hcap]
        · rw [simStep_balance_nocap c m s hcap]
          push_neg at hcap
          linarith
      · exact ih (m + 1) (simStep c m s).1 row hrow

theorem simFrom_balance_nonneg (c : EngineConsts) (he : c.extraPrincipal = 0) :
    ∀ fuel month s, 0 ≤ s.balance → 0 ≤ (simFrom c month fuel s).1.balance := by
  intro fuel
  induction fuel with
  | zero => intro m s hs; simpa [simFrom_fuel_zero] using hs
  | succ n ih =>
    intro m s hs
    by_cases hb : s.balance ≤ 0
    · rw [simFrom_stop c m _ s hb]; exact hs
    · rw [simFrom_succ c m n s hb]
      apply ih (m + 1)
      by_cases hcap : c.monthlyPayment - s.balance * c.monthlyInterestRate +
          c.extraPrincipal > s.balance
      · rw [simStep_balance_cap c m s hcap, he]; norm_num
      · rw [simStep_balance_nocap c m s hcap]
        push_neg at hcap
        linarith

theorem simFrom_chain (c : EngineConsts) (hr : 0 ≤ c.monthlyInterestRate)
    (he : 0 ≤ c.extraPrincipal)
    (hPL : c.loanAmount * c.monthlyInterestRate < c.monthlyPayment) :
    ∀ fuel month s, s.balance ≤ c.loanAmount →
      List.Chain' (fun x y => y.debt ≤ x.debt) (simFrom c month fuel s).2 ∧
      (∀ h ∈ ((simFrom c month fuel s).2).head?, h.debt ≤ s.balance) := by
  intro fuel
  induction fuel with
  | zero => intro m s _; simp [simFrom_fuel_zero]
  | succ n ih =>
    intro m s hsL
    by_cases hb : s.balance ≤ 0
    · rw [simFrom_stop c m _ s hb]; simp
    · push_neg at hb
      have hstep : (simStep c m s).1.balance ≤ s.balance := by
        by_cases hcap : c.monthlyPayment - s.balance * c.monthlyInterestRate +
            c.extraPrincipal > s.balance
        · rw [simStep_balance_cap c m s hcap]; linarith
        · rw [simStep_balance_nocap c m s hcap]
          have hbr : s.balance * c.monthlyInterestRate ≤
              c.loanAmount * c.monthlyInterestRate :=
            mul_le_mul_of_nonneg_right hsL hr
          linarith
      have hstepL : (simStep c m s).1.balance ≤ c.loanAmount := le_trans hstep hsL
      obtain ⟨hchain, hhead⟩ := ih (m + 1) (simStep c m s).1 hstepL
      rw [simFrom_succ c m n s (by linarith)]
      constructor
      · refine List.chain'_cons'.mpr ⟨?_, hchain⟩
        intro y hy
        have := hhead y hy
        rw [simStep_snd_debt]
        exact this
      · intro h hh
        simp only [List.head?_cons, Option.mem_def, Option.some.injEq] at hh
        subst hh
        rw [simStep_snd_debt]
        exact hstep

theorem simFrom_interest_zero (c : EngineConsts) (hr : c.monthlyInterestRate = 0) :
    ∀ fuel month s, (simFrom c month fuel s).1.totalInterest = s.totalInterest ∧
      ∀ row ∈ (simFrom c month fuel s).2, row.interest = 0 := by
  intro fuel
  induction fuel with
  | zero => intro m s; simp [simFrom_fuel_zero]
  | succ n ih =>
    intro m s
    by_cases hb : s.balance ≤ 0
    · rw [simFrom_stop c m _ s hb]; simp
    · rw [simFrom_succ c m n s hb]
      obtain ⟨ih1, ih2⟩ := ih (m + 1) (simStep c m s).1
      constructor
      · rw [ih1, simStep_fst_totalInterest, hr]; ring
      · intro row hrow
        simp only [List.mem_cons] at hrow
        rcases hrow with rfl | hrow
        · rw [simStep_snd_interest, hr]; ring
        · exact ih2 row hrow

theorem simFrom_pmi_zero (c : EngineConsts)
    (h : ¬ c.downPaymentPercent < (0.20 : ℚ)) :
    ∀ fuel month s, (simFrom c month fuel s).1.totalPmi = s.totalPmi ∧
      ∀ row ∈ (simFrom c month fuel s).2, row.pmi = 0 := by
  intro fuel
  induction fuel with
  | zero => intro m s; simp [simFrom_fuel_zero]
  | succ n ih =>
    intro m s
    by_cases hb : s.balance ≤ 0
    · rw [simFrom_stop c m _ s hb]; simp
    · rw [simFrom_succ c m n s hb]
      have hpmi : (simStep c m s).2.pmi = 0 := by
        rw [simStep_snd_pmi, if_neg (fun hc => h hc.1)]
      obtain ⟨ih1, ih2⟩ := ih (m + 1) (simStep c m s).1
      constructor
      · rw [ih1, simStep_fst_totalPmi, hpmi]; ring
      · intro row hrow
        simp only [List.mem_cons] at hrow
        rcases hrow with rfl | hrow
        · exact hpmi
        · exact ih2 row hrow

theorem simFrom_getLastD (c : EngineConsts) :
    ∀ fuel month s d, (simFrom c month fuel s).2 ≠ [] →
      ((simFrom c month fuel s).2.getLastD d).debt = (simFrom c month fuel s).1.balance := by
  intro fuel
  induction fuel with
  | zero => intro m s d h; exact absurd rfl h
  | succ n ih =>
    intro m s d h
    by_cases hb : s.balance ≤ 0
    · rw [simFrom_stop c m _ s hb] at h; exact absurd rfl h
    · rw [simFrom_succ c m n s hb]
      by_cases hrest : (simFrom c (m + 1) n (simStep c m s).1).2 = []
      · rw [hrest]
        rw [simFrom_nil_fst c n (m + 1) (simStep c m s).1 hrest]
        exact simStep_snd_debt c m s
      · have := ih (m + 1) (simStep c m s).1 ((simStep c m s).2) hrest
        rcases hl : (simFrom c (m + 1) n (simStep c m s).1).2 with _ | ⟨r2, rest2⟩
        · exact absurd hl hrest
        · rw [hl] at this
          simpa [List.getLastD_cons] using this

theorem uBal_zero_of_rate_zero (L P e : ℚ) :
    ∀ k : ℕ, uBal L P 0 e k = L - k * (P + e) := by
  intro k
  induction k with
  | zero => simp [uBal]
  | succ n ih =>
    rw [uBal, ih]
    push_cast
    ring

theorem uBal_closed (L P e r : ℚ) (hr : 0 < r) :
    ∀ k : ℕ, uBal L P r e k = L * (1 + r) ^ k - (P + e) * ((1 + r) ^ k - 1) / r := by
  intro k
  have hr0 : r ≠ 0 := ne_of_gt hr
  induction k with
  | zero => simp [uBal]
  | succ n ih =>
    rw [uBal, ih, pow_succ]
    field_simp
    ring

theorem payment_gt_Lr (L r : ℚ) (n : ℕ) (hL : 0 < L) (hr : 0 ≤ r) (hn : n ≠ 0) :
    L * r < (if 0 < r then L * (r * (1 + r) ^ n) / ((1 + r) ^ n - 1) else L / (n : ℚ)) := by
  rcases lt_or_eq_of_le hr with hr1 | hr1
  · rw [if_pos hr1]
    have hA : 1 < (1 + r) ^ n := one_lt_pow₀ (by linarith) hn
    rw [lt_div_iff₀ (by linarith)]
    have hLr : 0 < L * r := mul_pos hL hr1
    nlinarith
  · rw [if_neg (by rw [← hr1]; exact lt_irrefl 0), ← hr1, mul_zero]
    have hn' : (0 : ℚ) < (n : ℚ) := by
      exact_mod_cast Nat.pos_of_ne_zero hn
    exact div_pos hL hn'

theorem uBal_nonpos_at_n (L P r e : ℚ) (n : ℕ) (hL : 0 < L) (hr : 0 ≤ r) (he : 0 ≤ e)
    (hn : n ≠ 0)
    (hP : P = if 0 < r then L * (r * (1 + r) ^ n) / ((1 + r) ^ n - 1) else L / (n : ℚ)) :
    uBal L P r e n ≤ 0 := by
  rcases lt_or_eq_of_le hr with hr1 | hr1
  · have hA : 1 < (1 + r) ^ n := one_lt_pow₀ (by linarith) hn
    have hA1 : (0 : ℚ) < (1 + r) ^ n - 1 := by linarith
    have hr0 : r ≠ 0 := ne_of_gt hr1
    rw [uBal_closed L P e r hr1 n, hP, if_pos hr1]
    have hval : L * (1 + r) ^ n -
        (L * (r * (1 + r) ^ n) / ((1 + r) ^ n - 1) + e) * ((1 + r) ^ n - 1) / r =
        -(e * ((1 + r) ^ n - 1) / r) := by
      field_simp
      ring
    rw [hval]
    have : 0 ≤ e * ((1 + r) ^ n - 1) / r := by positivity
    linarith
  · rw [← hr1, uBal_zero_of_rate_zero L P e n, hP, if_neg (by rw [← hr1]; exact lt_irrefl 0)]
    have hn' : (0 : ℚ) < (n : ℚ) := by exact_mod_cast Nat.pos_of_ne_zero hn
    have hdiv : (n : ℚ) * (L / (n : ℚ)) = L := by field_simp
    have hne : (0 : ℚ) ≤ (n : ℚ) * e := by positivity
    nlinarith

theorem uBal_nonpos_ge (L P r e : ℚ) (n : ℕ) (hr : 0 ≤ r) (hPe : 0 ≤ P + e)
    (h : uBal L P r e n ≤ 0) : ∀ j, uBal L P r e (n + j) ≤ 0 := by
  intro j
  induction j with
  | zero => exact h
  | succ i ih =>
    have : n + (i + 1) = (n + i) + 1 := by omega
    rw [this, uBal]
    have h1 : uBal L P r e (n + i) * (1 + r) ≤ 0 :=
      mul_nonpos_of_nonpos_of_nonneg ih (by linarith)
    linarith

theorem simFrom_le_uBal (c : EngineConsts) (hr : 0 ≤ c.monthlyInterestRate)
    (he : 0 ≤ c.extraPrincipal) :
    ∀ fuel k month s,
      s.balance ≤
        uBal c.loanAmount c.monthlyPayment c.monthlyInterestRate c.extraPrincipal k →
      (simFrom c month fuel s).1.balance ≤
        uBal c.loanAmount c.monthlyPayment c.monthlyInterestRate c.extraPrincipal (k + fuel)
      ∨ (simFrom c month fuel s).1.balance ≤ 0 := by
  intro fuel
  induction fuel with
  | zero => intro k m s h; left; simpa [simFrom_fuel_zero] using h
  | succ n ih =>
    intro k m s h
    by_cases hb : s.balance ≤ 0
    · rw [simFrom_stop c m _ s hb]; exact Or.inr hb
    · rw [simFrom_succ c m n s hb]
      by_cases hcap : c.monthlyPayment - s.balance * c.monthlyInterestRate +
          c.extraPrincipal > s.balance
      · have hb1 : (simStep c m s).1.balance ≤ 0 := by
          rw [simStep_balance_cap c m s hcap]; linarith
        rw [simFrom_stop c (m + 1) n (simStep c m s).1 hb1]
        exact Or.inr hb1
      · have hb1 : (simStep c m s).1.balance =
            s.balance * (1 + c.monthlyInterestRate) -
              (c.monthlyPayment + c.extraPrincipal) := by
          rw [simStep_balance_nocap c m s hcap]; ring
        have hmono : (simStep c m s).1.balance ≤
            uBal c.loanAmount c.monthlyPayment c.monthlyInterestRate c.extraPrincipal
              (k + 1) := by
          rw [hb1, uBal]
          have := mul_le_mul_of_nonneg_right h
            (show (0 : ℚ) ≤ 1 + c.monthlyInterestRate by linarith)
          linarith
        have hidx : k + 1 + n = k + (n + 1) := by omega
        rcases ih (k + 1) (m + 1) (simStep c m s).1 hmono with h2 | h2
        · left; rw [← hidx]; exact h2
        · right; exact h2

theorem runSim_final_nonpos (c : EngineConsts) (n : ℕ)
    (hL : 0 < c.loanAmount) (hr : 0 ≤ c.monthlyInterestRate) (he : 0 ≤ c.extraPrincipal)
    (hn : n ≠ 0) (h360 : n ≤ 360)
    (hP : c.monthlyPayment =
      if 0 < c.monthlyInterestRate then
        c.loanAmount * (c.monthlyInterestRate * (1 + c.monthlyInterestRate) ^ n) /
          ((1 + c.monthlyInterestRate) ^ n - 1)
      else c.loanAmount / (n : ℚ)) :
    (runSim c).finalBalance ≤ 0 := by
  rw [runSim_finalBalance]
  have h0 : (initialState c).balance ≤
      uBal c.loanAmount c.monthlyPayment c.monthlyInterestRate c.extraPrincipal 0 :=
    le_refl _
  rcases simFrom_le_uBal c hr he 360 0 1 (initialState c) h0 with h | h
  · have hPpos : 0 < c.monthlyPayment := by
      have := payment_gt_Lr c.loanAmount c.monthlyInterestRate n hL hr hn
      rw [← hP] at this
      nlinarith [mul_nonneg (le_of_lt hL) hr]
    have hnn : uBal c.loanAmount c.monthlyPayment c.monthlyInterestRate c.extraPrincipal
        n ≤ 0 :=
      uBal_nonpos_at_n c.loanAmount c.monthlyPayment c.monthlyInterestRate
        c.extraPrincipal n hL hr he hn hP
    have hext := uBal_nonpos_ge c.loanAmount c.monthlyPayment c.monthlyInterestRate
      c.extraPrincipal n hr (by linarith) hnn (360 - n)
    have hidx : n + (360 - n) = 0 + 360 := by omega
    rw [hidx] at hext
    linarith
  · exact h

theorem buildConsts_monthlyRate (p : RawParams) :
    (buildConsts p).monthlyInterestRate = p.interestRatePct / 100 / 12 := rfl

theorem buildConsts_extra (p : RawParams) :
    (buildConsts p).extraPrincipal = p.extraPrincipal := rfl

theorem buildConsts_loanAmount (p : RawParams) :
    (buildConsts p).loanAmount =
      p.houseValue -
        (if p.usePercent then p.houseValue * (p.downPaymentPct / 100)
         else p.downPaymentAmt) := rfl

theorem buildConsts_numPayments (p : RawParams) (m : ℕ) (hty : p.loanTermYears = (m : ℚ))
    (hm : 12 * m ≤ 2147483647) : (buildConsts p).numPayments = ((12 * m : ℕ) : ℤ) := by
  show i32Sat (p.loanTermYears * 12) = ((12 * m : ℕ) : ℤ)
  rw [hty]
  unfold i32Sat
  have hcast : ((m : ℚ) * 12) = (((12 * m : ℕ) : ℤ) : ℚ) := by push_cast; ring
  rw [hcast, Int.floor_intCast]
  omega

theorem buildConsts_payment (p : RawParams) (m : ℕ) (hty : p.loanTermYears = (m : ℚ))
    (hm : 12 * m ≤ 2147483647) :
    (buildConsts p).monthlyPayment =
      if 0 < (buildConsts p).monthlyInterestRate then
        (buildConsts p).loanAmount * ((buildConsts p).monthlyInterestRate *
            (1 + (buildConsts p).monthlyInterestRate) ^ (12 * m)) /
          ((1 + (buildConsts p).monthlyInterestRate) ^ (12 * m) - 1)
      else (buildConsts p).loanAmount / ((12 * m : ℕ) : ℚ) := by
  have hnp := buildConsts_numPayments p m hty hm
  show (if (buildConsts p).monthlyInterestRate > 0 then
      (buildConsts p).loanAmount * ((buildConsts p).monthlyInterestRate *
          (1 + (buildConsts p).monthlyInterestRate) ^ (buildConsts p).numPayments) /
        ((1 + (buildConsts p).monthlyInterestRate) ^ (buildConsts p).numPayments - 1)
    else (buildConsts p).loanAmount / ((buildConsts p).numPayments : ℚ)) = _
  rw [hnp]
  have hz : ∀ a : ℚ, a ^ (((12 * m : ℕ) : ℤ)) = a ^ (12 * m : ℕ) := by
    intro a; exact zpow_natCast a (12 * m)
  rw [hz]
  norm_cast

theorem buildConsts_numPayments_sat (p : RawParams) (m : ℕ)
    (hty : p.loanTermYears = (m : ℚ)) (hm : 2147483647 ≤ 12 * m) :
    (buildConsts p).numPayments = 2147483647 := by
  show i32Sat (p.loanTermYears * 12) = 2147483647
  rw [hty]
  unfold i32Sat
  have hcast : ((m : ℚ) * 12) = (((12 * m : ℕ) : ℤ) : ℚ) := by push_cast; ring
  rw [hcast, Int.floor_intCast]
  omega

theorem buildConsts_payment_zero_rate (p : RawParams)
    (hr : (buildConsts p).monthlyInterestRate = 0) :
    (buildConsts p).monthlyPayment =
      (buildConsts p).loanAmount / ((buildConsts p).numPayments : ℚ) := by
  show (if (buildConsts p).monthlyInterestRate > 0 then
      (buildConsts p).loanAmount * ((buildConsts p).monthlyInterestRate *
          (1 + (buildConsts p).monthlyInterestRate) ^ (buildConsts p).numPayments) /
        ((1 + (buildConsts p).monthlyInterestRate) ^ (buildConsts p).numPayments - 1)
    else (buildConsts p).loanAmount / ((buildConsts p).numPayments : ℚ)) = _
  rw [if_neg (by rw [hr]; exact lt_irrefl 0)]

/-- C7: for every parameter set, the sum over all emitted rows of
(principal + extra_principal) equals the original loan amount (house value
minus the resolved down payment) minus the remaining balance after the last
row, exactly in the idealised real arithmetic, and the summary's
total_principal_paid equals the same quantity. -/
theorem C7_principal_accounting (p : RawParams) :
    ((((runSim (buildConsts p)).rows.map
        (fun row => row.principal + row.extra_principal)).sum =
      (p.houseValue - (if p.usePercent then p.houseValue * (p.downPaymentPct / 100)
          else p.downPaymentAmt)) - (runSim (buildConsts p)).finalBalance)) ∧
    ((runSim (buildConsts p)).summary.total_principal_paid =
      (p.houseValue - (if p.usePercent then p.houseValue * (p.downPaymentPct / 100)
          else p.downPaymentAmt)) - (runSim (buildConsts p)).finalBalance) := by
  have h1 := simFrom_sum_principal (buildConsts p) 360 1 (initialState (buildConsts p))
  have h2 := simFrom_totalPrincipal (buildConsts p) 360 1 (initialState (buildConsts p))
  have hinit : (initialState (buildConsts p)).balance = (buildConsts p).loanAmount := rfl
  have hinitP : (initialState (buildConsts p)).totalPrincipal = 0 := rfl
  constructor
  · rw [runSim_rows, runSim_finalBalance, ← buildConsts_loanAmount, h1, hinit]
  · rw [runSim_totalPrincipal, runSim_finalBalance, ← buildConsts_loanAmount, h2,
      hinitP, hinit]
    ring

/-- C8: if the down-payment fraction computed at origination is at least
0.20, every emitted row's pmi field is 0 and the summary's total_pmi_paid
is 0, for arbitrary PMI inputs and either PMI representation. -/
theorem C8_pmi_zero_when_20pct (p : RawParams)
    (h : (0.20 : ℚ) ≤ (buildConsts p).downPaymentPercent) :
    (∀ row ∈ (runSim (buildConsts p)).rows, row.pmi = 0) ∧
    (runSim (buildConsts p)).summary.total_pmi_paid = 0 := by
  have hlt : ¬ (buildConsts p).downPaymentPercent < (0.20 : ℚ) := not_lt.mpr h
  obtain ⟨h1, h2⟩ :=
    simFrom_pmi_zero (buildConsts p) hlt 360 1 (initialState (buildConsts p))
  constructor
  · intro row hrow
    rw [runSim_rows] at hrow
    exact h2 row hrow
  · rw [runSim_totalPmi, h1]
    rfl

/-- Witness for C8 at the standard parameter set, whose down payment is
exactly 20 percent of the house value. -/
theorem C8_witness :
    ((0.20 : ℚ) ≤ (buildConsts pStd).downPaymentPercent) ∧
    ((∀ row ∈ (runSim (buildConsts pStd)).rows, row.pmi = 0) ∧
     (runSim (buildConsts pStd)).summary.total_pmi_paid = 0) :=
  ⟨of_decide_eq_true (by with_unfolding_all rfl),
   C8_pmi_zero_when_20pct pStd (of_decide_eq_true (by with_unfolding_all rfl))⟩

/-- C9 counterexample: with a zero interest rate but a loan term of a
billion years, the i32 cast of loan_term_years * 12.0 saturates at
2147483647, so the straight-line monthly payment is the loan amount divided
by 2147483647 rather than by loan_term_years * 12, refuting the claimed
payment formula. -/
theorem C9_counterexample :
    pHugeTerm.interestRatePct = 0 ∧
    (buildConsts pHugeTerm).monthlyPayment ≠
      (buildConsts pHugeTerm).loanAmount / (pHugeTerm.loanTermYears * 12) ∧
    (buildConsts pHugeTerm).monthlyPayment =
      (buildConsts pHugeTerm).loanAmount / 2147483647 :=
  of_decide_eq_true (by with_unfolding_all rfl)

/-- C9 amended: if the parsed annual interest rate is exactly 0 then, for
every parameter set, every row's interest field is 0 and the summary's
total_interest_paid is 0; the fixed monthly payment equals
loan_amount / (loan_term_years * 12) exactly whenever the term is a
positive whole number of years with loan_term_years * 12 at most
2147483647, and for terms at or beyond that bound the saturating i32 cast
makes the payment loan_amount / 2147483647 instead. -/
theorem C9_amended (p : RawParams) (hr : p.interestRatePct = 0) :
    (∀ row ∈ (runSim (buildConsts p)).rows, row.interest = 0) ∧
    (runSim (buildConsts p)).summary.total_interest_paid = 0 ∧
    (∀ m : ℕ, m ≠ 0 → p.loanTermYears = (m : ℚ) → 12 * m ≤ 2147483647 →
      (buildConsts p).monthlyPayment =
        (buildConsts p).loanAmount / (p.loanTermYears * 12)) ∧
    (∀ m : ℕ, p.loanTermYears = (m : ℚ) → 2147483647 ≤ 12 * m →
      (buildConsts p).monthlyPayment = (buildConsts p).loanAmount / 2147483647) := by
  have hrm : (buildConsts p).monthlyInterestRate = 0 := by
    rw [buildConsts_monthlyRate, hr]
    norm_num
  have hpay := buildConsts_payment_zero_rate p hrm
  refine ⟨?_, ?_, ?_, ?_⟩
  · intro row hrow
    rw [runSim_rows] at hrow
    exact (simFrom_interest_zero (buildConsts p) hrm 360 1
      (initialState (buildConsts p))).2 row hrow
  · rw [runSim_totalInterest,
      (simFrom_interest_zero (buildConsts p) hrm 360 1 (initialState (buildConsts p))).1]
    rfl
  · intro m hm1 hty hm
    rw [hpay, buildConsts_numPayments p m hty hm, hty]
    have hcast : ((((12 * m : ℕ) : ℤ)) : ℚ) = (m : ℚ) * 12 := by push_cast; ring
    rw [hcast]
  · intro m hty hm
    rw [hpay, buildConsts_numPayments_sat p m hty hm]
    norm_num

/-- Witness for C9 at the standard parameter set with a zero rate and a
30-year term. -/
theorem C9_witness :
    pStdZero.interestRatePct = 0 ∧
    ((∀ row ∈ (runSim (buildConsts pStdZero)).rows, row.interest = 0) ∧
     (runSim (buildConsts pStdZero)).summary.total_interest_paid = 0 ∧
     (∀ m : ℕ, m ≠ 0 → pStdZero.loanTermYears = (m : ℚ) → 12 * m ≤ 2147483647 →
       (buildConsts pStdZero).monthlyPayment =
         (buildConsts pStdZero).loanAmount / (pStdZero.loanTermYears * 12)) ∧
     (∀ m : ℕ, pStdZero.loanTermYears = (m : ℚ) → 2147483647 ≤ 12 * m →
       (buildConsts pStdZero).monthlyPayment =
         (buildConsts pStdZero).loanAmount / 2147483647)) :=
  ⟨of_decide_eq_true (by with_unfolding_all rfl),
   C9_amended pStdZero (of_decide_eq_true (by with_unfolding_all rfl))⟩

/-- C4 counterexample: on the zero-rate loan with extra principal the final
balance is -48, while final_equity is set to the compounded house value, so
final_equity differs from final_house_value minus the final balance. -/
theorem C4_counterexample :
    (runSim (buildConsts pExtra)).summary.final_equity ≠
      (runSim (buildConsts pExtra)).summary.final_house_value -
        (runSim (buildConsts pExtra)).finalBalance :=
  of_decide_eq_true (by with_unfolding_all rfl)

/-- C4 amended: the summary's final_equity always equals final_house_value
(the source assigns the compounded house value to both), and it equals
final_house_value minus the final remaining balance exactly when that final
balance is 0. -/
theorem C4_amended (p : RawParams) :
    ((runSim (buildConsts p)).summary.final_equity =
      (runSim (buildConsts p)).summary.final_house_value) ∧
    ((runSim (buildConsts p)).summary.final_equity =
        (runSim (buildConsts p)).summary.final_house_value -
          (runSim (buildConsts p)).finalBalance ↔
      (runSim (buildConsts p)).finalBalance = 0) := by
  have heq : (runSim (buildConsts p)).summary.final_equity =
      (runSim (buildConsts p)).summary.final_house_value := rfl
  refine ⟨heq, ?_⟩
  rw [heq]
  constructor
  · intro h
    linarith
  · intro h
    rw [h, sub_zero]

/-- C1 counterexample: on the zero-rate loan of 96 with extra principal 48
the loan amount is positive, yet the final remaining balance is negative
(it is -48), because in the capped month the loop still deducts
principal + extra beyond the remaining balance. -/
theorem C1_counterexample :
    0 < (buildConsts pExtra).loanAmount ∧
    (runSim (buildConsts pExtra)).finalBalance < 0 :=
  of_decide_eq_true (by with_unfolding_all rfl)

/-- C1 amended: every emitted row's remaining debt is at least
-extra_monthly_principal (so the deduction of a month can exceed the
starting balance by at most the extra payment, and the principal component
alone never exceeds it), and when extra_monthly_principal = 0 the balance
after the final emitted row is exactly 0, for every parameter set with a
positive loan amount, a nonnegative rate, and a term of at most 30 years. -/
theorem C1_amended (p : RawParams) (m : ℕ)
    (hL : 0 < (buildConsts p).loanAmount) (hr : 0 ≤ p.interestRatePct)
    (he : 0 ≤ p.extraPrincipal) (hty : p.loanTermYears = (m : ℚ))
    (hm1 : m ≠ 0) (hm30 : m ≤ 30) :
    (∀ row ∈ (runSim (buildConsts p)).rows, -p.extraPrincipal ≤ row.debt) ∧
    (p.extraPrincipal = 0 → (runSim (buildConsts p)).finalBalance = 0) := by
  have hrc : 0 ≤ (buildConsts p).monthlyInterestRate := by
    rw [buildConsts_monthlyRate]
    exact div_nonneg (div_nonneg hr (by norm_num)) (by norm_num)
  have hec : 0 ≤ (buildConsts p).extraPrincipal := by rw [buildConsts_extra]; exact he
  have hm' : 12 * m ≤ 2147483647 := by omega
  have hP := buildConsts_payment p m hty hm'
  constructor
  · intro row hrow
    rw [runSim_rows] at hrow
    have := simFrom_debt_ge (buildConsts p) hec 360 1
      (initialState (buildConsts p)) row hrow
    rwa [buildConsts_extra] at this
  · intro hez
    have hez' : (buildConsts p).extraPrincipal = 0 := by rw [buildConsts_extra, hez]
    have hle : (runSim (buildConsts p)).finalBalance ≤ 0 :=
      runSim_final_nonpos (buildConsts p) (12 * m) hL hrc hec (by omega) (by omega) hP
    have hge : 0 ≤ (runSim (buildConsts p)).finalBalance := by
      rw [runSim_finalBalance]
      exact simFrom_balance_nonneg (buildConsts p) hez' 360 1
        (initialState (buildConsts p)) (le_of_lt hL)
    linarith

/-- Witness for C1 at the standard parameter set. -/
theorem C1_witness :
    (0 < (buildConsts pStd).loanAmount ∧ (0 : ℚ) ≤ pStd.interestRatePct ∧
      (0 : ℚ) ≤ pStd.extraPrincipal ∧ pStd.loanTermYears = ((30 : ℕ) : ℚ)) ∧
    ((∀ row ∈ (runSim (buildConsts pStd)).rows, -pStd.extraPrincipal ≤ row.debt) ∧
     (pStd.extraPrincipal = 0 → (runSim (buildConsts pStd)).finalBalance = 0)) :=
  ⟨⟨of_decide_eq_true (by with_unfolding_all rfl),
    of_decide_eq_true (by with_unfolding_all rfl),
    of_decide_eq_true (by with_unfolding_all rfl),
    of_decide_eq_true (by with_unfolding_all rfl)⟩,
   C1_amended pStd 30 (of_decide_eq_true (by with_unfolding_all rfl))
     (of_decide_eq_true (by with_unfolding_all rfl))
     (of_decide_eq_true (by with_unfolding_all rfl))
     (of_decide_eq_true (by with_unfolding_all rfl)) (by norm_num) (by norm_num)⟩

set_option maxRecDepth 100000 in
/-- C2 counterexample: a zero-rate 31-year loan of 372 is a valid parameter
set (positive house value, positive term), yet after the 360-iteration cap
of the loop the last emitted row still carries a positive remaining debt of
12. -/
theorem C2_counterexample :
    0 < pLong.houseValue ∧ pLong.loanTermYears = 31 ∧
    (runSim (buildConsts pLong)).rows.length = 360 ∧
    0 < ((runSim (buildConsts pLong)).rows.getLastD row0).debt :=
  of_decide_eq_true (by with_unfolding_all rfl)

/-- C2 amended: for every valid parameter set whose term is at most 30
years, the emitted months are 1, 2, 3, ... with no gaps, the remaining debt
is non-increasing across consecutive rows, at most 360 rows are emitted,
and when the loan amount is positive the row list is non-empty with the
last row's remaining debt at most 0. For terms beyond 30 years the loop is
capped at 360 rows and the last debt can stay positive. -/
theorem C2_amended (p : RawParams) (m : ℕ) (hhv : 0 < p.houseValue)
    (hr : 0 ≤ p.interestRatePct) (he : 0 ≤ p.extraPrincipal)
    (hty : p.loanTermYears = (m : ℚ)) (hm1 : m ≠ 0) (hm30 : m ≤ 30) :
    ((runSim (buildConsts p)).rows.map MortgageRow.month =
      List.range' 1 (runSim (buildConsts p)).rows.length) ∧
    List.Chain' (fun x y => y.debt ≤ x.debt) (runSim (buildConsts p)).rows ∧
    (runSim (buildConsts p)).rows.length ≤ 360 ∧
    (0 < (buildConsts p).loanAmount →
      (runSim (buildConsts p)).rows ≠ [] ∧
      ((runSim (buildConsts p)).rows.getLastD row0).debt ≤ 0) := by
  have hrc : 0 ≤ (buildConsts p).monthlyInterestRate := by
    rw [buildConsts_monthlyRate]
    exact div_nonneg (div_nonneg hr (by norm_num)) (by norm_num)
  have hec : 0 ≤ (buildConsts p).extraPrincipal := by rw [buildConsts_extra]; exact he
  have hm' : 12 * m ≤ 2147483647 := by omega
  have hP := buildConsts_payment p m hty hm'
  refine ⟨?_, ?_, ?_, ?_⟩
  · rw [runSim_rows]
    exact simFrom_months (buildConsts p) 360 1 (initialState (buildConsts p))
  · by_cases hL : 0 < (buildConsts p).loanAmount
    · have hPL : (buildConsts p).loanAmount * (buildConsts p).monthlyInterestRate <
          (buildConsts p).monthlyPayment := by
        have := payment_gt_Lr (buildConsts p).loanAmount
          (buildConsts p).monthlyInterestRate (12 * m) hL hrc (by omega)
        rw [← hP] at this
        exact this
      rw [runSim_rows]
      exact (simFrom_chain (buildConsts p) hrc hec hPL 360 1
        (initialState (buildConsts p)) (le_refl _)).1
    · push_neg at hL
      have hstop : (initialState (buildConsts p)).balance ≤ 0 := hL
      rw [runSim_rows, simFrom_stop (buildConsts p) 1 360 (initialState (buildConsts p))
        hstop]
      exact List.chain'_nil
  · rw [runSim_rows]
    exact simFrom_length_le (buildConsts p) 360 1 (initialState (buildConsts p))
  · intro hL
    have hne : (simFrom (buildConsts p) 1 360 (initialState (buildConsts p))).2 ≠ [] :=
      simFrom_ne_nil (buildConsts p) 360 1 (initialState (buildConsts p))
        (by norm_num) hL
    constructor
    · rw [runSim_rows]
      exact hne
    · have hlast := simFrom_getLastD (buildConsts p) 360 1
        (initialState (buildConsts p)) row0 hne
      have hfin : (runSim (buildConsts p)).finalBalance ≤ 0 :=
        runSim_final_nonpos (buildConsts p) (12 * m) hL hrc hec (by omega) (by omega) hP
      rw [runSim_finalBalance] at hfin
      rw [runSim_rows, hlast]
      exact hfin

/-- Witness for C2 at the standard parameter set. -/
theorem C2_witness :
    (0 < pStd.houseValue ∧ (0 : ℚ) ≤ pStd.interestRatePct ∧
      (0 : ℚ) ≤ pStd.extraPrincipal ∧ pStd.loanTermYears = ((30 : ℕ) : ℚ)) ∧
    (((runSim (buildConsts pStd)).rows.map MortgageRow.month =
        List.range' 1 (runSim (buildConsts pStd)).rows.length) ∧
     List.Chain' (fun x y => y.debt ≤ x.debt) (runSim (buildConsts pStd)).rows ∧
     (runSim (buildConsts pStd)).rows.length ≤ 360 ∧
     (0 < (buildConsts pStd).loanAmount →
       (runSim (buildConsts pStd)).rows ≠ [] ∧
       ((runSim (buildConsts pStd)).rows.getLastD row0).debt ≤ 0)) :=
  ⟨⟨of_decide_eq_true (by with_unfolding_all rfl),
    of_decide_eq_true (by with_unfolding_all rfl),
    of_decide_eq_true (by with_unfolding_all rfl),
    of_decide_eq_true (by with_unfolding_all rfl)⟩,
   C2_amended pStd 30 (of_decide_eq_true (by with_unfolding_all rfl))
     (of_decide_eq_true (by with_unfolding_all rfl))
     (of_decide_eq_true (by with_unfolding_all rfl))
     (of_decide_eq_true (by with_unfolding_all rfl)) (by norm_num) (by norm_num)⟩

/-- C3: evaluation of the code at the failing input. On the HOAFee step
with hoa_fee erased to the empty string, an Advance (Enter) moves the
wizard to InterestRate: handle_hoa_input lacks the emptiness guard that
every other input step has, contradicting the specified Advance contract. -/
theorem C3_hoa_advance_on_empty :
    appHoaEmpty.screen = Screen.HOAFee ∧ appHoaEmpty.inputs.hoa_fee = "" ∧
    (handleHoaInput appHoaEmpty { code := Key.enter, ctrl := false }).screen =
      Screen.InterestRate :=
  of_decide_eq_true (by with_unfolding_all rfl)

/-- C6: if the engine's parse fails when it runs, the Advance handler of the
ExtraPrincipal step returns the session state completely unchanged: same
screen, same input strings, same stored rows and summary. In the source
every parse of calculate_mortgage happens before the stored data is
cleared, so an error leaves the App untouched apart from a printed
message. -/
theorem C6_engine_error_preserves_state (a : App) (ctl : Bool)
    (h : calculateMortgage a.inputs = none) :
    handleExtraPrincipalInput a { code := Key.enter, ctrl := ctl } = a := by
  show extraPrincipalAdvance a = a
  unfold extraPrincipalAdvance
  rw [h]
  split <;> rfl

/-- Witness for C6: a session on the ExtraPrincipal step whose house_value
string is still empty, so the engine parse fails, and the handler leaves
the state unchanged. -/
theorem C6_witness :
    calculateMortgage appBadCalc.inputs = none ∧
    handleExtraPrincipalInput appBadCalc { code := Key.enter, ctrl := false } =
      appBadCalc :=
  ⟨of_decide_eq_true (by with_unfolding_all rfl),
   C6_engine_error_preserves_state appBadCalc false
     (of_decide_eq_true (by with_unfolding_all rfl))⟩

/-- C5 counterexample: on a spreadsheet state with an empty row list the
next-row action evaluates spreadsheet_data.len() - 1, which underflows (a
debug build aborts); the claim that no navigation action can abort on an
empty row list is false. -/
theorem C5_counterexample :
    handleSpreadsheetInput appNoRows { code := Key.down, ctrl := false } = none :=
  of_decide_eq_true (by with_unfolding_all rfl)

/-- C5 amended: on a spreadsheet state with a non-empty row list and an
in-range cursor, every list-navigation action succeeds without quitting,
keeps the selected index inside the row range, and changes nothing but the
selected index (screen, inputs, rows and summary are untouched). On an
empty row list the next-row and page-forward actions underflow instead. -/
theorem C5_amended (a : App) (k : KeyEvent) (hne : a.spreadsheet_data ≠ [])
    (hsel : a.tableSelected.getD 0 < a.spreadsheet_data.length) (hk : k ∈ navKeys) :
    ∃ b : App, handleSpreadsheetInput a k = some (false, b) ∧
      b.screen = a.screen ∧ b.inputs = a.inputs ∧
      b.spreadsheet_data = a.spreadsheet_data ∧ b.summary = a.summary ∧
      b.tableSelected.getD 0 < a.spreadsheet_data.length := by
  have hlen : a.spreadsheet_data.length ≠ 0 := by
    intro h0
    exact hne (List.length_eq_zero.mp h0)
  have hdown : ∃ b : App, spreadsheetNavDown a = some (false, b) ∧
      b.screen = a.screen ∧ b.inputs = a.inputs ∧
      b.spreadsheet_data = a.spreadsheet_data ∧ b.summary = a.summary ∧
      b.tableSelected.getD 0 < a.spreadsheet_data.length := by
    unfold spreadsheetNavDown
    rw [if_neg hlen]
    by_cases hc : a.tableSelected.getD 0 < a.spreadsheet_data.length - 1
    · rw [if_pos hc]
      refine ⟨_, rfl, rfl, rfl, rfl, rfl, ?_⟩
      simp only [Option.getD_some]
      omega
    · rw [if_neg hc]
      exact ⟨a, rfl, rfl, rfl, rfl, rfl, hsel⟩
  have hup : ∃ b : App, spreadsheetNavUp a = some (false, b) ∧
      b.screen = a.screen ∧ b.inputs = a.inputs ∧
      b.spreadsheet_data = a.spreadsheet_data ∧ b.summary = a.summary ∧
      b.tableSelected.getD 0 < a.spreadsheet_data.length := by
    unfold spreadsheetNavUp
    by_cases hc : 0 < a.tableSelected.getD 0
    · rw [if_pos hc]
      refine ⟨_, rfl, rfl, rfl, rfl, rfl, ?_⟩
      simp only [Option.getD_some]
      omega
    · rw [if_neg hc]
      exact ⟨a, rfl, rfl, rfl, rfl, rfl, hsel⟩
  have hfwd : ∃ b : App, spreadsheetPageFwd a = some (false, b) ∧
      b.screen = a.screen ∧ b.inputs = a.inputs ∧
      b.spreadsheet_data = a.spreadsheet_data ∧ b.summary = a.summary ∧
      b.tableSelected.getD 0 < a.spreadsheet_data.length := by
    unfold spreadsheetPageFwd
    rw [if_neg hlen]
    refine ⟨_, rfl, rfl, rfl, rfl, rfl, ?_⟩
    simp only [Option.getD_some]
    omega
  have hback : ∃ b : App, spreadsheetPageBack a = some (false, b) ∧
      b.screen = a.screen ∧ b.inputs = a.inputs ∧
      b.spreadsheet_data = a.spreadsheet_data ∧ b.summary = a.summary ∧
      b.tableSelected.getD 0 < a.spreadsheet_data.length := by
    unfold spreadsheetPageBack
    refine ⟨_, rfl, rfl, rfl, rfl, rfl, ?_⟩
    simp only [Option.getD_some]
    omega
  have htop : ∃ b : App, (some (false, { a with tableSelected := some 0 }) :
      Option (Bool × App)) = some (false, b) ∧
      b.screen = a.screen ∧ b.inputs = a.inputs ∧
      b.spreadsheet_data = a.spreadsheet_data ∧ b.summary = a.summary ∧
      b.tableSelected.getD 0 < a.spreadsheet_data.length := by
    refine ⟨_, rfl, rfl, rfl, rfl, rfl, ?_⟩
    simp only [Option.getD_some]
    omega
  fin_cases hk
  · exact hdown
  · exact hdown
  · exact hup
  · exact hup
  · exact hfwd
  · exact hfwd
  · exact hback
  · exact hback
  · exact htop
  · -- bottom: G selects the last row
    show ∃ b : App, (if a.spreadsheet_data.isEmpty then some (false, a)
        else some (false,
          { a with tableSelected := some (a.spreadsheet_data.length - 1) })) =
        some (false, b) ∧ _
    rw [if_neg (by simpa [List.isEmpty_iff] using hne)]
    refine ⟨_, rfl, rfl, rfl, rfl, rfl, ?_⟩
    simp only [Option.getD_some]
    omega

/-- Witness for C5: a spreadsheet state with one row, cursor on it, and the
next-row action. -/
theorem C5_witness :
    appOneRow.spreadsheet_data ≠ [] ∧
    (∃ b : App,
      handleSpreadsheetInput appOneRow { code := Key.down, ctrl := false } =
        some (false, b) ∧
      b.screen = appOneRow.screen ∧ b.inputs = appOneRow.inputs ∧
      b.spreadsheet_data = appOneRow.spreadsheet_data ∧
      b.summary = appOneRow.summary ∧
      b.tableSelected.getD 0 < appOneRow.spreadsheet_data.length) :=
  ⟨of_decide_eq_true (by with_unfolding_all rfl),
   C5_amended appOneRow { code := Key.down, ctrl := false }
     (of_decide_eq_true (by with_unfolding_all rfl))
     (of_decide_eq_true (by with_unfolding_all rfl))
     (of_decide_eq_true (by with_unfolding_all rfl))⟩

/-- C10: the engine's output does not depend on the text stored in the
inactive side of any dual-mode category: replacing the inactive down
payment, property tax, insurance, maintenance and PMI texts by arbitrary
strings leaves the whole result of calculate_mortgage (rows, summary, and
success or failure alike) unchanged. -/
theorem C10_inactive_independent (i : MortgageInputs)
    (dpS taxS insS maintS pmiS : String) :
    calculateMortgage (setInactive i dpS taxS insS maintS pmiS) =
      calculateMortgage i := by
  have h : resolveConsts (setInactive i dpS taxS insS maintS pmiS) = resolveConsts i := by
    unfold resolveConsts
    cases hup : i.use_percent <;> cases htx : i.use_property_tax_percent <;>
      cases hins : i.use_insurance_percent <;> cases hmn : i.use_maintenance_percent <;>
      cases hpm : i.use_pmi_percent <;>
        simp only [setInactive, hup, htx, hins, hmn, hpm, Bool.false_eq_true,
          if_true, if_false]
  unfold calculateMortgage
  rw [h]

end Homebuyer
